import Mathlib

/-!
# xjoin-operator: search-index lifecycle, validation-pod orchestration, finalizer handling

A shallow embedding of

* `controllers/elasticsearch/index.go` (`IndexExists`, `CreateIndex`, `DeleteIndexByFullName`,
  `DeleteIndex`, `CountIndex`, `ESIndexName`),
* `controllers/index/xjoinindexvalidator_iteration.go` (`ReconcileValidationPod`,
  `ValidationPodName`, `ParsePodResponse`),
* `controllers/xjoindatasourcepipeline_controller.go` (`Reconcile`).

Go strings are Lean `String`s; the library string functions are defined on the character
lists. A Go call that may panic returns a `Run`; a Go `error` result is an `Option GoError`.
External systems (search engine, Kubernetes API server) are explicit state that is passed
through every call together with the list of requests issued.
-/

namespace XJoin

/-! ## Go runtime: errors and panics -/

/-- A Go `error` value: a reason (the Kubernetes status reason, or the library that raised
it), a message, and the `errors.Wrap` layers of `github.com/go-errors/errors` around it. -/
inductive GoError where
  | mk (reason : String) (msg : String)
  | wrap (inner : GoError)
  deriving DecidableEq, Repr

/-- The outcome of running a Go function body: it returns, or it panics. -/
inductive Run (α : Type) where
  | ret (a : α)
  | panic (msg : String)
  deriving DecidableEq, Repr

/-- Reason of the innermost error below the `errors.Wrap` layers. -/
def GoError.reason : GoError → String
  | .mk r _ => r
  | .wrap e => e.reason

/-- `k8errors.IsNotFound`. -/
def IsNotFound (e : GoError) : Bool := e.reason == "NotFound"

/-- `k8errors.IsConflict`. -/
def IsConflict (e : GoError) : Bool := e.reason == "Conflict"

/-! ## Go `strings` -/

/-- Prepend a character to the first piece of a split. -/
def consHead (c : Char) : List (List Char) → List (List Char)
  | [] => [[c]]
  | h :: t => (c :: h) :: t

/-- Worker of `strings.Split` for a non-empty separator. The counter is the number of
characters of a matched separator that are still to be skipped. -/
def splitAux (sep : List Char) : Nat → List Char → List (List Char)
  | _, [] => [[]]
  | k + 1, _ :: cs => splitAux sep k cs
  | 0, c :: cs =>
    if sep.isPrefixOf (c :: cs) then [] :: splitAux sep (sep.length - 1) cs
    else consHead c (splitAux sep 0 cs)

/-- `strings.Split(s, sep)`: the pieces of `s` between the non-overlapping occurrences of
`sep`; with an empty `sep` the string is cut after every character. -/
def Split (s sep : String) : List String :=
  if sep.data = [] then s.data.map (fun c => String.mk [c])
  else (splitAux sep.data 0 s.data).map String.mk

/-- Worker of `strings.ReplaceAll` for a non-empty `old`. -/
def replaceAux (old new : List Char) : Nat → List Char → List Char
  | _, [] => []
  | k + 1, _ :: cs => replaceAux old new k cs
  | 0, c :: cs =>
    if old.isPrefixOf (c :: cs) then new ++ replaceAux old new (old.length - 1) cs
    else c :: replaceAux old new 0 cs

/-- `strings.ReplaceAll(s, old, new)`: every non-overlapping occurrence of `old` replaced by
`new`; with an empty `old`, `new` is inserted before every character and at the end. -/
def ReplaceAll (s old new : String) : String :=
  if old.data = [] then String.mk (new.data ++ s.data.flatMap (fun c => c :: new.data))
  else String.mk (replaceAux old.data new.data 0 s.data)

/-! ## `controllers/elasticsearch/index.go` -/

/-- An `esapi.Response`: the HTTP status and the body. -/
structure Response where
  StatusCode : Nat
  Body : String
  deriving DecidableEq, Repr

/-- The search engine behind `es.Client`: the indices it holds, the transport error (if
any) with which every request fails, and the bodies it serves on the catalog endpoints. -/
structure Engine where
  indices : List String
  transportErr : Option GoError
  catCountBody : String → String
  catIndicesBody : String → String

/-- A request sent to the search engine. -/
inductive ESRequest where
  | indicesExists (index : String)
  | indicesCreate (index : String) (body : String)
  | indicesDelete (index : String)
  | catIndices (pattern : String)
  | catCount (index : String)
  deriving DecidableEq, Repr

/-- The engine answers `HEAD /<index>`: 200 when it holds the index, 404 otherwise. -/
def Engine.indicesExists (c : Engine) (index : String) : Except GoError Response :=
  match c.transportErr with
  | some e => .error e
  | none => .ok (if index ∈ c.indices then ⟨200, ""⟩ else ⟨404, ""⟩)

/-- The engine answers `PUT /<index>`: 400 (`resource_already_exists_exception`) when it
holds the index, otherwise it adds the index and answers 200. -/
def Engine.indicesCreate (c : Engine) (index : String) : Engine × Except GoError Response :=
  match c.transportErr with
  | some e => (c, .error e)
  | none =>
    if index ∈ c.indices then (c, .ok ⟨400, "resource_already_exists_exception"⟩)
    else ({ c with indices := c.indices ++ [index] }, .ok ⟨200, ""⟩)

/-- The engine answers `DELETE /<index>`: 404 when it does not hold the index, otherwise it
drops the index and answers 200. -/
def Engine.indicesDelete (c : Engine) (index : String) : Engine × Except GoError Response :=
  match c.transportErr with
  | some e => (c, .error e)
  | none =>
    if index ∈ c.indices then
      ({ c with indices := c.indices.filter (fun n => n != index) }, .ok ⟨200, ""⟩)
    else (c, .ok ⟨404, "index_not_found_exception"⟩)

/-- The engine answers `GET /_cat/count/<index>?format=JSON`. -/
def Engine.catCount (c : Engine) (index : String) : Except GoError Response :=
  match c.transportErr with
  | some e => .error e
  | none => .ok ⟨200, c.catCountBody index⟩

/-- What `index.go` uses but does not define: the package helper `parseResponse` (only the
status code and the error of its three results are used), the method `ESPipelineName`, and
the two steps of `text/template`. -/
structure Helpers where
  parseResponse : Response → Int × Option GoError
  ESPipelineName : String → String → String
  templateParse : String → Option GoError
  templateExecute : String → List (String × String) → Except GoError String

/-- The text occurs somewhere in the input. -/
def hasInfix (pat : List Char) : List Char → Bool
  | [] => pat.isPrefixOf []
  | c :: cs => pat.isPrefixOf (c :: cs) || hasInfix pat cs

/-- The answer of the search engine states the already-exists condition: status 400 with
the error type `resource_already_exists_exception` in the body. -/
def isAlreadyExists (res : Response) : Bool :=
  res.StatusCode == 400 && hasInfix "resource_already_exists_exception".data res.Body.data

/-- Modelled from the spec: `parseResponse` is not among the sources. It returns the
status code of the response and an error for what the spec counts as a failed answer: "a
non-success response (other than an already-exists condition) is fatal to the calling
reconcile pass". A "not found" answer is a non-success response and carries the error;
`IndexExists` and `DeleteIndexByFullName` filter it by the code 404 themselves. -/
def parseResponse (res : Response) : Int × Option GoError :=
  if res.StatusCode > 299 ∧ isAlreadyExists res = false then
    ((res.StatusCode : Int), some (.mk "elasticsearch" ("Elasticsearch API error: " ++ res.Body)))
  else ((res.StatusCode : Int), none)

/-- The receiver `es *ElasticSearch`. -/
structure ElasticSearch where
  Client : Engine
  resourceNamePrefix : String
  indexTemplate : String
  parametersMap : List (String × String)

/-- Go map assignment `m[k] = v`. -/
def mapSet (m : List (String × String)) (k v : String) : List (String × String) :=
  if m.any (fun p => p.1 == k) then m.map (fun p => if p.1 == k then (k, v) else p)
  else m ++ [(k, v)]

/-- The function `ESIndexName(resourceNamePrefix, pipelineVersion)`. -/
def ESIndexName (resourceNamePrefix : String) (pipelineVersion : String) : String :=
  resourceNamePrefix ++ "." ++ pipelineVersion

/-- The method `(es *ElasticSearch) ESIndexName(pipelineVersion)`. -/
def ElasticSearch.ESIndexName (es : ElasticSearch) (pipelineVersion : String) : String :=
  XJoin.ESIndexName es.resourceNamePrefix pipelineVersion

/-- The result of a method of `ElasticSearch` that returns an `error`: the receiver after
the call (its engine and its parameter map), the requests issued, the error. -/
structure ESOut where
  es : ElasticSearch
  requests : List ESRequest
  err : Option GoError

/-- `(es *ElasticSearch) IndexExists(indexName) (bool, error)`. -/
def ElasticSearch.IndexExists (h : Helpers) (es : ElasticSearch) (indexName : String) :
    List ESRequest × Bool × Option GoError :=
  match es.Client.indicesExists indexName with
  | .error err => ([.indicesExists indexName], false, some err)
  | .ok res =>
    match h.parseResponse res with
    | (responseCode, err) =>
      if err ≠ none ∧ responseCode ≠ 404 then ([.indicesExists indexName], false, err)
      else if responseCode = 404 then ([.indicesExists indexName], false, none)
      else ([.indicesExists indexName], true, none)

/-- `(es *ElasticSearch) CreateIndex(pipelineVersion) error`. The parameter map is taken to
be initialised (an assignment into a nil map is not modelled). -/
def ElasticSearch.CreateIndex (h : Helpers) (es : ElasticSearch) (pipelineVersion : String) :
    ESOut :=
  match h.templateParse es.indexTemplate with
  | some err => ⟨es, [], some err⟩
  | none =>
    -- `params` aliases `es.parametersMap`
    let params := mapSet es.parametersMap "ElasticSearchIndex" (es.ESIndexName pipelineVersion)
    let params := mapSet params "ElasticSearchPipeline"
      (h.ESPipelineName es.resourceNamePrefix pipelineVersion)
    let es1 := { es with parametersMap := params }
    match h.templateExecute es.indexTemplate es1.parametersMap with
    | .error err => ⟨es1, [], some err⟩
    | .ok indexTemplateParsed =>
      let indexTemplateParsed := ReplaceAll indexTemplateParsed "\n" ""
      let indexTemplateParsed := ReplaceAll indexTemplateParsed "\t" ""
      let req := ESRequest.indicesCreate (es.ESIndexName pipelineVersion) indexTemplateParsed
      match es1.Client.indicesCreate (es.ESIndexName pipelineVersion) with
      | (c, .error err) => ⟨{ es1 with Client := c }, [req], some err⟩
      | (c, .ok res) => ⟨{ es1 with Client := c }, [req], (h.parseResponse res).2⟩

/-- `(es *ElasticSearch) DeleteIndexByFullName(index) error`. -/
def ElasticSearch.DeleteIndexByFullName (h : Helpers) (es : ElasticSearch) (index : String) :
    ESOut :=
  if index = "" then ⟨es, [], none⟩
  else
    match es.Client.indicesDelete index with
    | (c, .error err) => ⟨{ es with Client := c }, [.indicesDelete index], some err⟩
    | (c, .ok res) =>
      match h.parseResponse res with
      | (responseCode, err) =>
        if err ≠ none ∧ responseCode ≠ 404 then
          ⟨{ es with Client := c }, [.indicesDelete index], err⟩
        else ⟨{ es with Client := c }, [.indicesDelete index], none⟩

/-- `(es *ElasticSearch) DeleteIndex(version) error`. -/
def ElasticSearch.DeleteIndex (h : Helpers) (es : ElasticSearch) (version : String) : ESOut :=
  es.DeleteIndexByFullName h (es.ESIndexName version)

/-! ## Go `encoding/json` and `strconv` -/

/-- A decoded JSON value; a number keeps its text. -/
inductive JSON where
  | null
  | bool (b : Bool)
  | num (raw : String)
  | str (s : String)
  | arr (xs : List JSON)
  | obj (kvs : List (String × JSON))
  deriving Repr

/-- JSON whitespace. -/
def isWs (c : Char) : Bool := c == ' ' || c == '\t' || c == '\n' || c == '\r'

/-- Drop leading JSON whitespace. -/
def skipWs : List Char → List Char
  | [] => []
  | c :: cs => if isWs c then skipWs cs else c :: cs

/-- Value of a hexadecimal digit. -/
def hexVal (c : Char) : Option Nat :=
  if '0' ≤ c ∧ c ≤ '9' then some (c.toNat - '0'.toNat)
  else if 'a' ≤ c ∧ c ≤ 'f' then some (c.toNat - 'a'.toNat + 10)
  else if 'A' ≤ c ∧ c ≤ 'F' then some (c.toNat - 'A'.toNat + 10)
  else none

/-- The four hexadecimal digits of a `\u` escape. -/
def hex4 (a b c d : Char) : Option Nat :=
  match hexVal a, hexVal b, hexVal c, hexVal d with
  | some w, some x, some y, some z => some (((w * 16 + x) * 16 + y) * 16 + z)
  | _, _, _, _ => none

/-- The characters of a JSON string after its opening quote, up to the closing quote; the
rest of the input follows. A `\u` escape of a surrogate half decodes to U+FFFD. -/
def parseStrBody : List Char → List Char → Option (List Char × List Char)
  | _, [] => none
  | acc, '"' :: rest => some (acc.reverse, rest)
  | acc, '\\' :: '"' :: rest => parseStrBody ('"' :: acc) rest
  | acc, '\\' :: '\\' :: rest => parseStrBody ('\\' :: acc) rest
  | acc, '\\' :: '/' :: rest => parseStrBody ('/' :: acc) rest
  | acc, '\\' :: 'b' :: rest => parseStrBody (Char.ofNat 8 :: acc) rest
  | acc, '\\' :: 'f' :: rest => parseStrBody (Char.ofNat 12 :: acc) rest
  | acc, '\\' :: 'n' :: rest => parseStrBody ('\n' :: acc) rest
  | acc, '\\' :: 'r' :: rest => parseStrBody ('\r' :: acc) rest
  | acc, '\\' :: 't' :: rest => parseStrBody ('\t' :: acc) rest
  | acc, '\\' :: 'u' :: a :: b :: c :: d :: rest =>
    match hex4 a b c d with
    | some n =>
      parseStrBody ((if 0xD800 ≤ n ∧ n ≤ 0xDFFF then Char.ofNat 0xFFFD else Char.ofNat n) :: acc)
        rest
    | none => none
  | _, '\\' :: _ => none
  | acc, c :: rest => if c.toNat < 0x20 then none else parseStrBody (c :: acc) rest

/-- The leading decimal digits of the input, and the rest. -/
def takeDigits : List Char → List Char × List Char
  | [] => ([], [])
  | c :: cs =>
    if c.isDigit then ((takeDigits cs).1.cons c, (takeDigits cs).2) else ([], c :: cs)

/-- Fraction part of a JSON number, if one starts here. -/
def parseFrac (cs : List Char) : Option (List Char × List Char) :=
  match cs with
  | '.' :: rest =>
    match takeDigits rest with
    | ([], _) => none
    | (ds, rest2) => some ('.' :: ds, rest2)
  | _ => some ([], cs)

/-- Digits of an exponent, after the sign. -/
def parseExpDigits (pre : List Char) (cs : List Char) : Option (List Char × List Char) :=
  match takeDigits cs with
  | ([], _) => none
  | (ds, rest) => some (pre ++ ds, rest)

/-- Exponent part of a JSON number, if one starts here. -/
def parseExp (cs : List Char) : Option (List Char × List Char) :=
  match cs with
  | 'e' :: '+' :: rest => parseExpDigits ['e', '+'] rest
  | 'e' :: '-' :: rest => parseExpDigits ['e', '-'] rest
  | 'e' :: rest => parseExpDigits ['e'] rest
  | 'E' :: '+' :: rest => parseExpDigits ['E', '+'] rest
  | 'E' :: '-' :: rest => parseExpDigits ['E', '-'] rest
  | 'E' :: rest => parseExpDigits ['E'] rest
  | _ => some ([], cs)

/-- Integer part of a JSON number: `0`, or a non-zero digit followed by digits. -/
def parseIntPart (cs : List Char) : Option (List Char × List Char) :=
  match cs with
  | '0' :: rest => some (['0'], rest)
  | c :: rest =>
    if c.isDigit then some (c :: (takeDigits rest).1, (takeDigits rest).2) else none
  | [] => none

/-- A JSON number literal: its text, and the rest of the input. -/
def parseNumber (cs : List Char) : Option (List Char × List Char) :=
  let (sign, body) := match cs with
    | '-' :: rest => (['-'], rest)
    | _ => ([], cs)
  match parseIntPart body with
  | none => none
  | some (ip, r1) =>
    match parseFrac r1 with
    | none => none
    | some (fp, r2) =>
      match parseExp r2 with
      | none => none
      | some (ep, r3) => some (sign ++ ip ++ fp ++ ep, r3)

mutual
/-- A JSON value at the head of the input (leading whitespace allowed), and the rest. The
first argument bounds the nesting and the number of members read. -/
def parseValue : Nat → List Char → Option (JSON × List Char)
  | 0, _ => none
  | fuel + 1, cs =>
    match skipWs cs with
    | 'n' :: 'u' :: 'l' :: 'l' :: rest => some (.null, rest)
    | 't' :: 'r' :: 'u' :: 'e' :: rest => some (.bool true, rest)
    | 'f' :: 'a' :: 'l' :: 's' :: 'e' :: rest => some (.bool false, rest)
    | '"' :: rest =>
      match parseStrBody [] rest with
      | some (s, rest2) => some (.str (String.mk s), rest2)
      | none => none
    | '[' :: rest =>
      match skipWs rest with
      | ']' :: rest2 => some (.arr [], rest2)
      | _ => parseElems fuel rest []
    | '\x7b' :: rest =>
      match skipWs rest with
      | '\x7d' :: rest2 => some (.obj [], rest2)
      | _ => parseMembers fuel rest []
    | other =>
      match parseNumber other with
      | some (raw, rest) => some (.num (String.mk raw), rest)
      | none => none
/-- The elements of a non-empty JSON array after its opening bracket. -/
def parseElems : Nat → List Char → List JSON → Option (JSON × List Char)
  | 0, _, _ => none
  | fuel + 1, cs, acc =>
    match parseValue fuel cs with
    | none => none
    | some (v, rest) =>
      match skipWs rest with
      | ',' :: rest2 => parseElems fuel rest2 (v :: acc)
      | ']' :: rest2 => some (.arr (v :: acc).reverse, rest2)
      | _ => none
/-- The members of a non-empty JSON object after its opening brace. -/
def parseMembers : Nat → List Char → List (String × JSON) → Option (JSON × List Char)
  | 0, _, _ => none
  | fuel + 1, cs, acc =>
    match skipWs cs with
    | '"' :: rest =>
      match parseStrBody [] rest with
      | none => none
      | some (k, rest2) =>
        match skipWs rest2 with
        | ':' :: rest3 =>
          match parseValue fuel rest3 with
          | none => none
          | some (v, rest4) =>
            match skipWs rest4 with
            | ',' :: rest5 => parseMembers fuel rest5 ((String.mk k, v) :: acc)
            | '\x7d' :: rest5 => some (.obj ((String.mk k, v) :: acc).reverse, rest5)
            | _ => none
        | _ => none
    | _ => none
end

/-- The syntax check and scan of `json.Unmarshal`: the whole input is one JSON value with
optional whitespace around it. -/
def parseJSON (data : String) : Option JSON :=
  match parseValue (data.length + 1) data.data with
  | some (v, rest) => if skipWs rest = [] then some v else none
  | none => none

/-- Go map lookup `m[k]` on a map built by assigning the members in order: the last
assignment wins. -/
def mapGet (kvs : List (String × JSON)) (k : String) : Option JSON :=
  (kvs.reverse.find? (fun p => p.1 == k)).map (fun p => p.2)

/-- All digits of a decimal numeral. -/
def allDigits : List Char → Bool
  | [] => true
  | c :: cs => c.isDigit && allDigits cs

/-- Value of a string of decimal digits. -/
def digitsVal (cs : List Char) : Nat :=
  cs.foldl (fun n c => 10 * n + (c.toNat - '0'.toNat)) 0

/-- `strconv.ParseInt(s, 10, 64)`: an optional sign, then one or more decimal digits, the
value within the range of `int64`. On failure Go returns a value too, which the caller
here does not use. -/
def ParseInt (s : String) : Except GoError Int :=
  let (neg, ds) := match s.data with
    | '+' :: rest => (false, rest)
    | '-' :: rest => (true, rest)
    | other => (false, other)
  if s.data = [] ∨ ds = [] ∨ allDigits ds = false then
    .error (.mk "strconv" ("strconv.ParseInt: parsing " ++ s ++ ": invalid syntax"))
  else if (¬ neg ∧ digitsVal ds ≥ 2 ^ 63) ∨ (neg ∧ digitsVal ds > 2 ^ 63) then
    .error (.mk "strconv" ("strconv.ParseInt: parsing " ++ s ++ ": value out of range"))
  else .ok (if neg then - (digitsVal ds : Int) else (digitsVal ds : Int))

/-- `json.Unmarshal(data, &countJSON)` for `countJSON []map[string]interface{}`: `null`
leaves the nil slice; an array gives one map per element, a `null` element the nil map
(here the empty map: a lookup in either yields nil); anything else is an error. -/
def unmarshalMaps (data : String) : Except GoError (List (List (String × JSON))) :=
  match parseJSON data with
  | none => .error (.mk "json" "invalid character or unexpected end of JSON input")
  | some .null => .ok []
  | some (.arr xs) =>
    xs.foldr (fun x acc =>
      match x, acc with
      | _, .error e => .error e
      | .obj kvs, .ok ms => .ok (kvs :: ms)
      | .null, .ok ms => .ok ([] :: ms)
      | _, .ok _ => .error (.mk "json" "cannot unmarshal into Go value of type map"))
      (.ok [])
  | some _ => .error (.mk "json" "cannot unmarshal into Go value of type []map")

/-- `(es *ElasticSearch) CountIndex(index) (int, error)`. The slice index `countJSON[0]`
and the type assertion `.(string)` panic when they fail. -/
def ElasticSearch.CountIndex (es : ElasticSearch) (index : String) :
    List ESRequest × Run (Int × Option GoError) :=
  match es.Client.catCount index with
  | .error err => ([.catCount index], .ret (-1, some err))
  | .ok res =>
    let byteValue := res.Body
    match unmarshalMaps byteValue with
    | .error err => ([.catCount index], .ret (-1, some err))
    | .ok countJSON =>
      match countJSON with
      | [] => ([.catCount index], .panic "runtime error: index out of range [0] with length 0")
      | m :: _ =>
        match mapGet m "count" with
        | some (.str s) =>
          match ParseInt s with
          | .error err => ([.catCount index], .ret (-1, some err))
          | .ok response => ([.catCount index], .ret (response, none))
        | _ =>
          ([.catCount index],
            .panic "interface conversion: interface \x7b\x7d is not string")

/-! ## The Kubernetes API server, as seen through `i.Client` and `i.ClientSet` -/

/-- `errors.Wrap(err, 0)` of `github.com/go-errors/errors`: a value that is already a
wrapped error is used as it is, any other error gets one wrapper. -/
def Wrap : GoError → GoError
  | .wrap e => .wrap e
  | .mk r m => .wrap (.mk r m)

/-- `v1.SecretKeySelector`. -/
structure SecretKeySelector where
  Name : String
  Key : String
  deriving DecidableEq, Repr

/-- `v1.EnvVar`. -/
structure EnvVar where
  Name : String
  Value : String
  ValueFrom : Option SecretKeySelector
  deriving DecidableEq, Repr

/-- `v1.Container`. -/
structure Container where
  Name : String
  Image : String
  Env : List EnvVar
  ImagePullPolicy : String
  deriving DecidableEq, Repr

/-- `v1.Pod`, with the fields the validator sets or reads, and the combined output log
that the API server serves for it. -/
structure Pod where
  Name : String
  Namespace : String
  Labels : List (String × String)
  RestartPolicy : String
  Containers : List Container
  Phase : String
  Logs : String
  deriving DecidableEq, Repr

/-- Modelled from the spec: `v1alpha1.ValidationResponse` is not among the sources; the
spec gives the decoded payload as `message: string, result: string`. -/
structure ValidationResponse where
  Message : String
  Result : String
  deriving DecidableEq, Repr

/-- The `XJoinIndexPipeline` resource whose status receives the validation response. -/
structure XJoinIndexPipeline where
  Name : String
  Namespace : String
  ValidationResponse : ValidationResponse
  deriving DecidableEq, Repr

/-- The failure, if any, with which each kind of client call is answered. -/
structure Faults where
  list : Option GoError
  create : Option GoError
  get : Option GoError
  stream : Option GoError
  copy : Option GoError
  fetch : Option GoError
  statusUpdate : Option GoError
  delete : Option GoError

/-- The cluster: its pods, its index pipelines, and the failures of the API server. -/
structure Cluster where
  pods : List Pod
  indexPipelines : List XJoinIndexPipeline
  faults : Faults

/-- A call issued to the API server. -/
inductive K8sCall where
  | listPods (ns : String) (labels : List (String × String))
  | createPod (pod : Pod)
  | getPod (name ns : String)
  | getLogs (ns name : String)
  | getIndexPipeline (name ns : String)
  | updateStatus (p : XJoinIndexPipeline)
  | deletePod (name ns : String)
  deriving DecidableEq, Repr

/-- A pod carries every label of a `client.MatchingLabels` selector. -/
def matchesLabels (labels : List (String × String)) (p : Pod) : Bool :=
  labels.all (fun l => p.Labels.contains l)

/-- `Client.List(ctx, podList, client.InNamespace(ns), labels)`. -/
def Cluster.List (c : Cluster) (ns : String) (labels : List (String × String)) :
    Except GoError (List Pod) :=
  match c.faults.list with
  | some e => .error e
  | none => .ok (c.pods.filter (fun p => p.Namespace == ns && matchesLabels labels p))

/-- `Client.Create(ctx, pod)`: refused when a pod of that name is in the namespace. -/
def Cluster.Create (c : Cluster) (pod : Pod) : Cluster × Option GoError :=
  match c.faults.create with
  | some e => (c, some e)
  | none =>
    if c.pods.any (fun p => p.Name == pod.Name && p.Namespace == pod.Namespace) then
      (c, some (.mk "AlreadyExists" pod.Name))
    else ({ c with pods := c.pods ++ [pod] }, none)

/-- `Client.Get(ctx, client.ObjectKey(name, ns), pod)`. -/
def Cluster.Get (c : Cluster) (name ns : String) : Except GoError Pod :=
  match c.faults.get with
  | some e => .error e
  | none =>
    match c.pods.find? (fun p => p.Name == name && p.Namespace == ns) with
    | some p => .ok p
    | none => .error (.mk "NotFound" name)

/-- `Client.Delete(ctx, pod)`. -/
def Cluster.Delete (c : Cluster) (pod : Pod) : Cluster × Option GoError :=
  match c.faults.delete with
  | some e => (c, some e)
  | none =>
    if c.pods.any (fun p => p.Name == pod.Name && p.Namespace == pod.Namespace) then
      let rest := c.pods.filter (fun p => !(p.Name == pod.Name && p.Namespace == pod.Namespace))
      ({ c with pods := rest }, none)
    else (c, some (.mk "NotFound" pod.Name))

/-- `ClientSet.CoreV1().Pods(ns).GetLogs(name, opts).Stream(ctx)`. -/
def Cluster.Stream (c : Cluster) (ns name : String) : Except GoError String :=
  match c.faults.stream with
  | some e => .error e
  | none =>
    match c.pods.find? (fun p => p.Name == name && p.Namespace == ns) with
    | some p => .ok p.Logs
    | none => .error (.mk "NotFound" name)

/-- Modelled from the spec: `utils.FetchXJoinIndexPipeline` is not among the sources; it
reads the current state of the resource by its namespaced name. -/
def FetchXJoinIndexPipeline (c : Cluster) (name ns : String) :
    Except GoError XJoinIndexPipeline :=
  match c.faults.fetch with
  | some e => .error e
  | none =>
    match c.indexPipelines.find? (fun p => p.Name == name && p.Namespace == ns) with
    | some p => .ok p
    | none => .error (.mk "NotFound" name)

/-- `Client.Status().Update(ctx, xjoinIndexPipeline)`. -/
def Cluster.StatusUpdate (c : Cluster) (x : XJoinIndexPipeline) : Cluster × Option GoError :=
  match c.faults.statusUpdate with
  | some e => (c, some e)
  | none =>
    if c.indexPipelines.any (fun p => p.Name == x.Name && p.Namespace == x.Namespace) then
      let upd := c.indexPipelines.map
        (fun p => if p.Name == x.Name && p.Namespace == x.Namespace then x else p)
      ({ c with indexPipelines := upd }, none)
    else (c, some (.mk "NotFound" x.Name))

/-! ## `controllers/index/xjoinindexvalidator_iteration.go` -/

/-- The fields of `parameters.IndexParameters` that the validator reads. -/
structure IndexParameters where
  SchemaRegistryProtocol : String
  SchemaRegistryHost : String
  SchemaRegistryPort : String
  AvroSchema : String

/-- The receiver `i *XJoinIndexValidatorIteration`: name and namespace of `i.Instance`,
and the parameters. -/
structure XJoinIndexValidatorIteration where
  Name : String
  Namespace : String
  Parameters : IndexParameters

/-- `(i *XJoinIndexValidatorIteration) ValidationPodName() string`. -/
def XJoinIndexValidatorIteration.ValidationPodName (i : XJoinIndexValidatorIteration) :
    String :=
  let name := "xjoin-validation-" ++ i.Name
  let name := ReplaceAll name "." "-"
  name

/-- Decode one member of the payload object into `response`: the key matches a field
ignoring case; a string sets the field, `null` leaves it, another value is a type error. -/
def setField (response : ValidationResponse) (k : String) (v : JSON) :
    ValidationResponse × Option GoError :=
  if k.data.map Char.toLower = "message".data then
    match v with
    | .str s => ({ response with Message := s }, none)
    | .null => (response, none)
    | _ => (response, some (.mk "json" "cannot unmarshal into Go struct field message"))
  else if k.data.map Char.toLower = "result".data then
    match v with
    | .str s => ({ response with Result := s }, none)
    | .null => (response, none)
    | _ => (response, some (.mk "json" "cannot unmarshal into Go struct field result"))
  else (response, none)

/-- Decode the members of the payload object in order; the first type error is kept. -/
def setFields : ValidationResponse → List (String × JSON) → ValidationResponse × Option GoError
  | response, [] => (response, none)
  | response, (k, v) :: kvs =>
    match setField response k v with
    | (r1, e1) =>
      match setFields r1 kvs with
      | (r2, e2) => (r2, if e1.isSome then e1 else e2)

/-- `json.Unmarshal(data, &response)` for `response v1alpha1.ValidationResponse`: input
that is not one JSON value is a syntax error and leaves `response` as it is; `null` leaves
it as it is without error; an object sets the fields; another value is a type error. -/
def unmarshalResponse (data : String) (response : ValidationResponse) :
    ValidationResponse × Option GoError :=
  match parseJSON data with
  | none => (response, some (.mk "json" "invalid character or unexpected end of JSON input"))
  | some .null => (response, none)
  | some (.obj kvs) => setFields response kvs
  | some _ => (response, some (.mk "json" "cannot unmarshal into Go value of type struct"))

/-- Go slice indexing `a[i]` with a signed index: out of range is a panic. -/
def index (a : List String) (i : Int) : Run String :=
  if i < 0 ∨ i ≥ (a.length : Int) then
    .panic "runtime error: index out of range"
  else .ret (a.getD i.toNat "")

/-- `(i *XJoinIndexValidatorIteration) ParsePodResponse() (v1alpha1.ValidationResponse, error)`. -/
def XJoinIndexValidatorIteration.ParsePodResponse (i : XJoinIndexValidatorIteration)
    (c : Cluster) : List K8sCall × Run (ValidationResponse × Option GoError) :=
  let response : ValidationResponse := ⟨"", ""⟩
  let calls := [K8sCall.getLogs i.Namespace i.ValidationPodName]
  match c.Stream i.Namespace i.ValidationPodName with
  | .error err => (calls, .ret (response, some (Wrap err)))
  | .ok podLogs =>
    match c.faults.copy with
    | some err => (calls, .ret (response, some (Wrap err)))
    | none =>
      let str := podLogs
      let strArray := Split str "\n"
      match index strArray ((strArray.length : Int) - 2) with
      | .panic msg => (calls, .panic msg)
      | .ret resultString =>
        match unmarshalResponse resultString response with
        | (response, some err) => (calls, .ret (response, some (Wrap err)))
        | (response, none) => (calls, .ret (response, none))

/-- The pod that `ReconcileValidationPod` creates. -/
def XJoinIndexValidatorIteration.validationPod (i : XJoinIndexValidatorIteration) : Pod :=
  { Name := i.ValidationPodName
    Namespace := i.Namespace
    Labels := [("xjoin.index", i.Name)]
    RestartPolicy := "Never"
    Containers := [
      { Name := i.ValidationPodName
        Image := "quay.io/ckyrouac/xjoin-validation:latest"
        Env := [
          ⟨"ELASTICSEARCH_URL", "", some ⟨"xjoin-elasticsearch", "endpoint"⟩⟩,
          ⟨"ELASTICSEARCH_USERNAME", "", some ⟨"xjoin-elasticsearch", "username"⟩⟩,
          ⟨"ELASTICSEARCH_PASSWORD", "", some ⟨"xjoin-elasticsearch", "password"⟩⟩,
          ⟨"ELASTICSEARCH_INDEX", "", none⟩,
          ⟨"SCHEMA_REGISTRY_PROTOCOL", i.Parameters.SchemaRegistryProtocol, none⟩,
          ⟨"SCHEMA_REGISTRY_HOST", i.Parameters.SchemaRegistryHost, none⟩,
          ⟨"SCHEMA_REGISTRY_PORT", i.Parameters.SchemaRegistryPort, none⟩,
          ⟨"AVRO_SCHEMA", i.Parameters.AvroSchema, none⟩]
        ImagePullPolicy := "Always" }]
    Phase := ""
    Logs := "" }

/-- The result of one pass of `ReconcileValidationPod`: the cluster after the pass, the
calls issued in order, and what the function returned (or its panic). -/
structure PassOut where
  cluster : Cluster
  calls : List K8sCall
  result : Run (String × Option GoError)

/-- `(i *XJoinIndexValidatorIteration) ReconcileValidationPod() (phase string, err error)`. -/
def XJoinIndexValidatorIteration.ReconcileValidationPod (i : XJoinIndexValidatorIteration)
    (c : Cluster) : PassOut :=
  -- check if pod is already running
  let labels := [("xjoin.index", i.Name)]
  let t0 := [K8sCall.listPods i.Namespace labels]
  match c.List i.Namespace labels with
  | .error err => ⟨c, t0, .ret ("", some (Wrap err))⟩
  | .ok podList =>
    if podList.length = 0 then
      -- run separate xjoin-validation pod
      match c.Create i.validationPod with
      | (c1, some err) => ⟨c1, t0 ++ [.createPod i.validationPod], .ret ("", some (Wrap err))⟩
      | (c1, none) => ⟨c1, t0 ++ [.createPod i.validationPod], .ret ("", none)⟩
    else
      let t1 := t0 ++ [K8sCall.getPod i.ValidationPodName i.Namespace]
      match c.Get i.ValidationPodName i.Namespace with
      | .error err => ⟨c, t1, .ret ("", some (Wrap err))⟩
      | .ok pod =>
        if pod.Phase = "Succeeded" then
          -- check output of xjoin-validation pod
          match i.ParsePodResponse c with
          | (pc, .panic msg) => ⟨c, t1 ++ pc, .panic msg⟩
          | (pc, .ret (_, some err)) => ⟨c, t1 ++ pc, .ret ("", some (Wrap err))⟩
          | (pc, .ret (response, none)) =>
            -- update xjoinindexpipeline resource based on xjoin-validation pod's output
            let t2 := t1 ++ pc ++ [K8sCall.getIndexPipeline i.Name i.Namespace]
            match FetchXJoinIndexPipeline c i.Name i.Namespace with
            | .error err => ⟨c, t2, .ret ("", some (Wrap err))⟩
            | .ok xjoinIndexPipeline =>
              let xjoinIndexPipeline := { xjoinIndexPipeline with ValidationResponse := response }
              let t3 := t2 ++ [K8sCall.updateStatus xjoinIndexPipeline]
              match c.StatusUpdate xjoinIndexPipeline with
              | (c1, some err) =>
                if IsConflict err then ⟨c1, t3, .ret ("", some (Wrap err))⟩
                else ⟨c1, t3, .ret ("", some (Wrap err))⟩
              | (c1, none) =>
                let t4 := t3 ++ [K8sCall.deletePod pod.Name pod.Namespace]
                match c1.Delete pod with
                | (c2, some err) => ⟨c2, t4, .ret ("", some (Wrap err))⟩
                | (c2, none) => ⟨c2, t4, .ret (response.Result, none)⟩
        else if pod.Phase = "Failed" then ⟨c, t1, .ret ("failed", none)⟩
        else ⟨c, t1, .ret ("running", none)⟩

/-! ## `controllers/xjoindatasourcepipeline_controller.go` -/

/-- The finalizer token of the data source pipeline controller. -/
def xjoindatasourcepipelineFinalizer : String :=
  "finalizer.xjoin.datasourcepipeline.cloud.redhat.com"

/-- The `XJoinDataSourcePipeline` resource, with the metadata `Reconcile` reads. -/
structure XJoinDataSourcePipeline where
  Name : String
  Namespace : String
  DeletionTimestamp : Option Nat
  Finalizers : List String
  deriving DecidableEq, Repr

/-- A component registered with the component manager. -/
inductive Component where
  | AvroSchema (name : String) (schema : String)
  | KafkaTopic
  | DebeziumConnector
  deriving DecidableEq, Repr

/-- The `components.ComponentManager`: the version and the registered components. -/
structure ComponentManager where
  version : String
  components : List Component
  deriving DecidableEq, Repr

/-- `components.NewComponentManager(version)`. -/
def NewComponentManager (version : String) : ComponentManager := ⟨version, []⟩

/-- `AddComponent(c)`: appended to the registration list. -/
def ComponentManager.AddComponent (m : ComponentManager) (c : Component) : ComponentManager :=
  { m with components := m.components ++ [c] }

/-- What one pass of `Reconcile` meets outside the function: the stored resource, the
failures of the API server, what the configuration manager yields, and the outcome of the
component manager's `DeleteAll` and `CreateAll` (which `Reconcile` calls but which are
not among the sources). -/
structure World where
  stored : Option XJoinDataSourcePipeline
  fetchErr : Option GoError
  newManagerErr : Option GoError
  parseErr : Option GoError
  Pause : Bool
  Version : String
  AvroSchema : String
  DeleteAll : ComponentManager → Option GoError
  CreateAll : ComponentManager → Option GoError
  updateErr : Option GoError

/-- What `Reconcile` does to the outside, in order. -/
inductive Step where
  | fetch
  | newManager
  | parse
  | deleteAll (m : ComponentManager)
  | removeFinalizer (token : String)
  | update (r : XJoinDataSourcePipeline)
  | createAll (m : ComponentManager)
  deriving DecidableEq, Repr

/-- `ctrl.Result`: the delay in seconds after which the pass is repeated (0: none). -/
structure Result where
  RequeueAfter : Nat
  deriving DecidableEq, Repr

/-- The result of one pass of `Reconcile`: the stored resource after the pass, the steps
taken, and the two return values. -/
structure ReconcileOut where
  stored : Option XJoinDataSourcePipeline
  steps : List Step
  result : Result
  err : Option GoError

/-- `utils.FetchXJoinDataSourcePipeline(r.Client, request.NamespacedName, ctx)`. -/
def World.Fetch (w : World) : Except GoError XJoinDataSourcePipeline :=
  match w.fetchErr with
  | some e => .error e
  | none =>
    match w.stored with
    | some r => .ok r
    | none => .error (.mk "NotFound" "xjoindatasourcepipeline")

/-- `controllerutil.RemoveFinalizer(o, finalizer)`: every occurrence is dropped. -/
def RemoveFinalizer (o : XJoinDataSourcePipeline) (finalizer : String) :
    XJoinDataSourcePipeline :=
  { o with Finalizers := o.Finalizers.filter (fun f => f != finalizer) }

/-- `r.Client.Update(ctx, instance)`: the stored resource is replaced unless the call
fails. -/
def World.Update (w : World) (r : XJoinDataSourcePipeline) :
    Option XJoinDataSourcePipeline × Option GoError :=
  match w.updateErr with
  | some e => (w.stored, some e)
  | none => (some r, none)

/-- `(r *XJoinDataSourcePipelineReconciler) Reconcile(ctx, request) (result, err)`. -/
def Reconcile (w : World) : ReconcileOut :=
  match w.Fetch with
  | .error err =>
    if IsNotFound err then ⟨w.stored, [.fetch], ⟨0⟩, none⟩
    else ⟨w.stored, [.fetch], ⟨0⟩, some err⟩
  | .ok inst =>
    match w.newManagerErr with
    | some err => ⟨w.stored, [.fetch, .newManager], ⟨0⟩, some err⟩
    | none =>
      match w.parseErr with
      | some err => ⟨w.stored, [.fetch, .newManager, .parse], ⟨0⟩, some err⟩
      | none =>
        let t0 := [Step.fetch, .newManager, .parse]
        if w.Pause = true then ⟨w.stored, t0, ⟨0⟩, none⟩
        else
          let componentManager := NewComponentManager w.Version
          let componentManager :=
            componentManager.AddComponent (.AvroSchema "test.schema" w.AvroSchema)
          let componentManager := componentManager.AddComponent .KafkaTopic
          let componentManager := componentManager.AddComponent .DebeziumConnector
          if inst.DeletionTimestamp ≠ none then
            let t1 := t0 ++ [Step.deleteAll componentManager]
            match w.DeleteAll componentManager with
            | some err => ⟨w.stored, t1, ⟨0⟩, some err⟩
            | none =>
              let inst := RemoveFinalizer inst xjoindatasourcepipelineFinalizer
              let t2 := t1 ++ [Step.removeFinalizer xjoindatasourcepipelineFinalizer,
                Step.update inst]
              match w.Update inst with
              | (s, some err) => ⟨s, t2, ⟨0⟩, some err⟩
              | (s, none) => ⟨s, t2, ⟨0⟩, none⟩
          else
            let t1 := t0 ++ [Step.createAll componentManager]
            match w.CreateAll componentManager with
            | some err => ⟨w.stored, t1, ⟨0⟩, some err⟩
            | none => ⟨w.stored, t1, ⟨30⟩, none⟩

/-! ## Sample data for the concrete checks -/

/-- Modelled from the spec: the helpers of `index.go` for an index template without
template actions. `parseResponse` is the one modelled above; `ESPipelineName` is "the
fully-qualified ingest-pipeline name for this version", taken as prefix + "." + version;
a template without actions parses and renders as its own text. -/
def plainHelpers : Helpers :=
  { parseResponse := parseResponse
    ESPipelineName := fun pfx v => pfx ++ "." ++ v
    templateParse := fun _ => none
    templateExecute := fun t _ => .ok t }

/-- A search engine without transport failure that holds the given indices. -/
def engineWith (indices : List String) : Engine :=
  { indices := indices, transportErr := none, catCountBody := fun _ => "[]",
    catIndicesBody := fun _ => "[]" }

/-- An index manager for the resource prefix "prefix" over the given engine. -/
def managerOn (c : Engine) : ElasticSearch :=
  { Client := c, resourceNamePrefix := "prefix", indexTemplate := "\x7b\n\t\"mappings\": \x7b\x7d\n\x7d",
    parametersMap := [] }

/-- An API server that answers every call. -/
def noFaults : Faults :=
  { list := none, create := none, get := none, stream := none, copy := none, fetch := none,
    statusUpdate := none, delete := none }

/-- A validator iteration for the owner "a.b.c" in the namespace "xjoin". -/
def sampleIteration : XJoinIndexValidatorIteration :=
  { Name := "a.b.c", Namespace := "xjoin",
    Parameters := ⟨"http", "registry", "8081", "\x7b\"type\":\"record\"\x7d"⟩ }

/-- A cluster that holds the validation pod of the iteration, in the given phase and with
the given output, and the index pipeline of the same name. -/
def clusterWithPod (i : XJoinIndexValidatorIteration) (phase logs : String) : Cluster :=
  { pods := [{ i.validationPod with Phase := phase, Logs := logs }]
    indexPipelines := [⟨i.Name, i.Namespace, ⟨"", ""⟩⟩]
    faults := noFaults }

/-- The selection rule in the words of the spec: the last non-empty line of the output,
if there is one. -/
def specLastNonEmptyLine (output : String) : Option String :=
  ((Split output "\n").filter (fun l => l != "")).getLast?

/-- The pods that the owner-label listing of the iteration selects. -/
def ownedPods (i : XJoinIndexValidatorIteration) (c : Cluster) : List Pod :=
  c.pods.filter (fun p => p.Namespace == i.Namespace && matchesLabels [("xjoin.index", i.Name)] p)

/-- The call is a pod creation. -/
def K8sCall.isCreate : K8sCall → Bool
  | .createPod _ => true
  | _ => false

/-- The call writes: a pod creation, a status update or a pod deletion. -/
def K8sCall.isWrite : K8sCall → Bool
  | .createPod _ => true
  | .updateStatus _ => true
  | .deletePod _ _ => true
  | _ => false

/-- The step removes the finalizer or persists an update of the resource. -/
def Step.isFinalizerWrite : Step → Bool
  | .removeFinalizer _ => true
  | .update _ => true
  | _ => false

/-- The component manager that `Reconcile` builds in a pass. -/
def World.componentManager (w : World) : ComponentManager :=
  ((NewComponentManager w.Version).AddComponent (.AvroSchema "test.schema" w.AvroSchema)
    |>.AddComponent .KafkaTopic).AddComponent .DebeziumConnector

/-- A data source pipeline that is marked for deletion and carries the finalizer. -/
def deletedPipeline : XJoinDataSourcePipeline :=
  { Name := "hosts", Namespace := "xjoin", DeletionTimestamp := some 1700000000,
    Finalizers := [xjoindatasourcepipelineFinalizer] }

/-- A world that holds `deletedPipeline`, in which only `DeleteAll` can fail. -/
def deletionWorld (deleteAllErr : Option GoError) : World :=
  { stored := some deletedPipeline, fetchErr := none, newManagerErr := none, parseErr := none,
    Pause := false, Version := "1", AvroSchema := "\x7b\x7d",
    DeleteAll := fun _ => deleteAllErr, CreateAll := fun _ => none, updateErr := none }

/-! ## Lemmas on the string functions -/

theorem replaceAux_dot (cs : List Char) :
    replaceAux ['.'] ['-'] 0 cs = cs.map (fun c => if c = '.' then '-' else c) := by
  induction cs with
  | nil => rfl
  | cons c cs ih =>
    by_cases hc : c = '.'
    · subst hc
      simp [replaceAux, List.isPrefixOf, ih]
    · have hc2 : ¬ '.' = c := fun e => hc e.symm
      simp [replaceAux, List.isPrefixOf, ih, hc, hc2]

theorem ReplaceAll_dot (s : String) :
    (ReplaceAll s "." "-").data = s.data.map (fun c => if c = '.' then '-' else c) := by
  have h : ("." : String).data = ['.'] := rfl
  have h2 : ("-" : String).data = ['-'] := rfl
  simp [ReplaceAll, h, h2, replaceAux_dot]

theorem splitAux_ne_nil (sep : List Char) (k : Nat) (cs : List Char) :
    splitAux sep k cs ≠ [] := by
  induction cs generalizing k with
  | nil => simp [splitAux]
  | cons c cs ih =>
    cases k with
    | succ k => simpa [splitAux] using ih k
    | zero =>
      simp only [splitAux]
      split
      · simp
      · cases h : splitAux sep 0 cs with
        | nil => exact absurd h (ih 0)
        | cons a b => simp [consHead]

theorem consHead_append (c : Char) (l r : List (List Char)) (h : l ≠ []) :
    consHead c (l ++ r) = consHead c l ++ r := by
  cases l with
  | nil => exact absurd rfl h
  | cons a b => rfl

theorem splitAux_newline_snoc (t : List Char) :
    splitAux ['\n'] 0 (t ++ ['\n']) = splitAux ['\n'] 0 t ++ [[]] := by
  induction t with
  | nil => rfl
  | cons c cs ih =>
    by_cases hc : c = '\n'
    · subst hc
      simp [splitAux, List.isPrefixOf, ih]
    · have hc2 : ¬ '\n' = c := fun e => hc e.symm
      simp [splitAux, List.isPrefixOf, hc, hc2, ih, consHead_append _ _ _ (splitAux_ne_nil _ _ _)]

theorem splitAux_no_newline (t : List Char) (h : '\n' ∉ t) :
    splitAux ['\n'] 0 t = [t] := by
  induction t with
  | nil => rfl
  | cons c cs ih =>
    have hc : c ≠ '\n' := fun e => h (by simp [e])
    have hcs : '\n' ∉ cs := fun e => h (by simp [e])
    have hc2 : ¬ '\n' = c := fun e => hc e.symm
    simp [splitAux, List.isPrefixOf, hc, hc2, ih hcs, consHead]

/-! ## Naming -/

theorem DeleteIndexByFullName_requests (h : Helpers) (es : ElasticSearch) (index : String) :
    (es.DeleteIndexByFullName h index).requests
      = if index = "" then [] else [ESRequest.indicesDelete index] := by
  unfold ElasticSearch.DeleteIndexByFullName
  by_cases hi : index = ""
  · simp [hi]
  · simp only [hi, if_false]
    split
    · rfl
    · split <;> rfl

/-- C6: for every owner name, `ValidationPodName` is "xjoin-validation-" followed by the
owner name with every "." replaced by "-" (every other character kept in place); the
returned name contains no "."; and for the owner "a.b.c" it is "xjoin-validation-a-b-c". -/
theorem ValidationPodName_spec (i : XJoinIndexValidatorIteration) :
    i.ValidationPodName.data
        = "xjoin-validation-".data ++ i.Name.data.map (fun c => if c = '.' then '-' else c)
      ∧ i.ValidationPodName = "xjoin-validation-" ++ ReplaceAll i.Name "." "-"
      ∧ '.' ∉ i.ValidationPodName.data
      ∧ ({ i with Name := "a.b.c" } : XJoinIndexValidatorIteration).ValidationPodName
          = "xjoin-validation-a-b-c" := by
  have key : i.ValidationPodName.data
      = "xjoin-validation-".data ++ i.Name.data.map (fun c => if c = '.' then '-' else c) := by
    simp only [XJoinIndexValidatorIteration.ValidationPodName, ReplaceAll_dot,
      String.data_append, List.map_append]
    rfl
  refine ⟨key, ?_, ?_, ?_⟩
  · apply String.ext
    rw [key, String.data_append, ReplaceAll_dot]
  · rw [key]
    simp only [List.mem_append, List.mem_map, not_or, not_exists, not_and]
    refine ⟨by decide, ?_⟩
    intro c _
    by_cases hc : c = '.'
    · simp [hc]
    · simp [hc]
  · apply String.ext
    simp only [XJoinIndexValidatorIteration.ValidationPodName, ReplaceAll_dot,
      String.data_append]
    rfl

/-- C7: for every resource prefix and pipeline version, `ESIndexName(prefix, version)` is
prefix + "." + version (so "prefix" and "v1" give "prefix.v1"); the method form returns
the same string for the manager's resource prefix; and `DeleteIndex(version)` is
`DeleteIndexByFullName` at prefix + "." + version, so that every request it issues is the
delete of exactly that name. -/
theorem ESIndexName_spec (h : Helpers) (es : ElasticSearch) (pfx version : String) :
    ESIndexName pfx version = pfx ++ "." ++ version
      ∧ (ESIndexName pfx version).data = pfx.data ++ '.' :: version.data
      ∧ ESIndexName "prefix" "v1" = "prefix.v1"
      ∧ es.ESIndexName version = ESIndexName es.resourceNamePrefix version
      ∧ es.DeleteIndex h version
          = es.DeleteIndexByFullName h (es.resourceNamePrefix ++ "." ++ version)
      ∧ ∀ r ∈ (es.DeleteIndex h version).requests,
          r = ESRequest.indicesDelete (es.resourceNamePrefix ++ "." ++ version) := by
  refine ⟨rfl, ?_, by decide, rfl, rfl, ?_⟩
  · simp only [ESIndexName, String.data_append]
    simp
  · intro r hr
    have hreq := DeleteIndexByFullName_requests h es (es.resourceNamePrefix ++ "." ++ version)
    have hd : es.DeleteIndex h version
        = es.DeleteIndexByFullName h (es.resourceNamePrefix ++ "." ++ version) := rfl
    rw [hd, hreq] at hr
    split at hr
    · simp at hr
    · simpa using hr

/-! ## Index deletion and creation -/

/-- C5: `DeleteIndexByFullName` returns an error if and only if the name is non-empty and
either the delete request itself fails or the parsed response carries an error with a
response code other than 404; for the empty name it returns no error and issues no
request; for a name whose delete is answered with code 404 it returns no error, as
happens when the engine does not hold the index and the 404 answer parses to code 404. -/
theorem DeleteIndexByFullName_error_iff (h : Helpers) (es : ElasticSearch) (index : String) :
    ((es.DeleteIndexByFullName h index).err ≠ none ↔
        index ≠ "" ∧
          ((∃ e, (es.Client.indicesDelete index).2 = .error e) ∨
            (∃ res, (es.Client.indicesDelete index).2 = .ok res ∧
              (h.parseResponse res).2 ≠ none ∧ (h.parseResponse res).1 ≠ 404)))
      ∧ (es.DeleteIndexByFullName h "").err = none
      ∧ (es.DeleteIndexByFullName h "").requests = []
      ∧ (∀ res, (es.Client.indicesDelete index).2 = .ok res → (h.parseResponse res).1 = 404 →
          (es.DeleteIndexByFullName h index).err = none)
      ∧ (es.Client.transportErr = none → index ∉ es.Client.indices →
          (h.parseResponse ⟨404, "index_not_found_exception"⟩).1 = 404 →
          (es.DeleteIndexByFullName h index).err = none) := by
  have main : (es.DeleteIndexByFullName h index).err ≠ none ↔
        index ≠ "" ∧
          ((∃ e, (es.Client.indicesDelete index).2 = .error e) ∨
            (∃ res, (es.Client.indicesDelete index).2 = .ok res ∧
              (h.parseResponse res).2 ≠ none ∧ (h.parseResponse res).1 ≠ 404)) := by
    unfold ElasticSearch.DeleteIndexByFullName
    by_cases hi : index = ""
    · simp [hi]
    · simp only [hi, if_false]
      rcases hd : es.Client.indicesDelete index with ⟨c, r⟩
      cases r with
      | error e => simp [hi]
      | ok res =>
        by_cases hc : (h.parseResponse res).2 ≠ none ∧ (h.parseResponse res).1 ≠ 404
        · simp only [hc]
          simp [hc.1, hc.2, hi]
        · simp only [hc]
          simp
          intro _ h1
          by_contra h2
          exact hc ⟨h1, h2⟩
  have h404 : ∀ res, (es.Client.indicesDelete index).2 = .ok res →
      (h.parseResponse res).1 = 404 → (es.DeleteIndexByFullName h index).err = none := by
    intro res hres h404
    by_contra hne
    rcases (main.mp hne).2 with ⟨e, he⟩ | ⟨res2, hr2, _, hcode⟩
    · rw [hres] at he
      cases he
    · rw [hres] at hr2
      cases hr2
      exact hcode h404
  refine ⟨main, ?_, ?_, h404, ?_⟩
  · simp [ElasticSearch.DeleteIndexByFullName]
  · simp [ElasticSearch.DeleteIndexByFullName]
  · intro ht hni hcode
    refine h404 ⟨404, "index_not_found_exception"⟩ ?_ hcode
    simp [Engine.indicesDelete, ht, hni]

/-- Witness of C5: the engine does not hold "prefix.v1", answers its delete with 404, and
`DeleteIndexByFullName` returns no error. -/
theorem DeleteIndexByFullName_error_iff_witness :
    ((managerOn (engineWith [])).DeleteIndexByFullName plainHelpers "prefix.v1").err = none :=
  (DeleteIndexByFullName_error_iff plainHelpers (managerOn (engineWith [])) "prefix.v1").2.2.2.2
    rfl (by decide) rfl

theorem CreateIndex_receiver (h : Helpers) (es : ElasticSearch) (v : String)
    (hp : h.templateParse es.indexTemplate = none)
    (hx : ∀ params, ∃ body, h.templateExecute es.indexTemplate params = .ok body)
    (ht : es.Client.transportErr = none) :
    (es.CreateIndex h v).es.indexTemplate = es.indexTemplate
      ∧ (es.CreateIndex h v).es.resourceNamePrefix = es.resourceNamePrefix
      ∧ (es.CreateIndex h v).es.Client.transportErr = none
      ∧ es.ESIndexName v ∈ (es.CreateIndex h v).es.Client.indices
      ∧ (es.ESIndexName v ∈ es.Client.indices →
          (es.CreateIndex h v).es.Client.indices = es.Client.indices)
      ∧ (es.CreateIndex h v).err
          = (h.parseResponse (if es.ESIndexName v ∈ es.Client.indices
              then ⟨400, "resource_already_exists_exception"⟩ else ⟨200, ""⟩)).2
      ∧ (es.ESIndexName v ∉ es.Client.indices →
          (es.CreateIndex h v).es.Client.indices = es.Client.indices ++ [es.ESIndexName v])
      ∧ (es.CreateIndex h v).requests.length = 1 := by
  unfold ElasticSearch.CreateIndex
  simp only [hp]
  obtain ⟨body, hb⟩ := hx (mapSet (mapSet es.parametersMap "ElasticSearchIndex"
    (es.ESIndexName v)) "ElasticSearchPipeline" (h.ESPipelineName es.resourceNamePrefix v))
  simp only [hb, Engine.indicesCreate, ht]
  by_cases hm : es.ESIndexName v ∈ es.Client.indices
  · simp [hm, ht]
  · simp [hm, ht]

/-- C8: with `parseResponse` as the spec describes it, for every pipeline version v and
every engine that answers (the template parses and renders, the transport does not
fail): when the engine already contains the index named prefix.v, the create request is
issued, it is answered with the already-exists response, `CreateIndex(v)` returns no
error and the set of indices stays as it was; `CreateIndex(v)` called twice in a row
returns no error on either call; and after the two calls on an engine that did not hold
the index, exactly one index is named prefix.v. -/
theorem CreateIndex_idempotent (h : Helpers) (es : ElasticSearch) (v : String)
    (hpr : h.parseResponse = parseResponse)
    (hp : h.templateParse es.indexTemplate = none)
    (hx : ∀ params, ∃ body, h.templateExecute es.indexTemplate params = .ok body)
    (ht : es.Client.transportErr = none) :
    (es.ESIndexName v ∈ es.Client.indices →
        (es.Client.indicesCreate (es.ESIndexName v)).2
            = .ok ⟨400, "resource_already_exists_exception"⟩
          ∧ (es.CreateIndex h v).requests.length = 1
          ∧ (es.CreateIndex h v).err = none
          ∧ (es.CreateIndex h v).es.Client.indices = es.Client.indices)
      ∧ (es.CreateIndex h v).err = none
      ∧ ((es.CreateIndex h v).es.CreateIndex h v).err = none
      ∧ (es.ESIndexName v ∉ es.Client.indices →
          ((es.CreateIndex h v).es.CreateIndex h v).es.Client.indices.count (es.ESIndexName v)
            = 1) := by
  have h400 : (h.parseResponse ⟨400, "resource_already_exists_exception"⟩).2 = none := by
    rw [hpr]
    decide
  have h200 : (h.parseResponse ⟨200, ""⟩).2 = none := by
    rw [hpr]
    decide
  have key := CreateIndex_receiver h es v hp hx ht
  have hp2 : h.templateParse (es.CreateIndex h v).es.indexTemplate = none := by
    rw [key.1]
    exact hp
  have hx2 : ∀ params, ∃ body,
      h.templateExecute (es.CreateIndex h v).es.indexTemplate params = .ok body := by
    rw [key.1]
    exact hx
  have key2 := CreateIndex_receiver h (es.CreateIndex h v).es v hp2 hx2 key.2.2.1
  have hn : (es.CreateIndex h v).es.ESIndexName v = es.ESIndexName v := by
    simp only [ElasticSearch.ESIndexName, key.2.1]
  have hin : (es.CreateIndex h v).es.ESIndexName v ∈ (es.CreateIndex h v).es.Client.indices := by
    rw [hn]
    exact key.2.2.2.1
  have hfirst : (es.CreateIndex h v).err = none := by
    rw [key.2.2.2.2.2.1]
    split
    · exact h400
    · exact h200
  refine ⟨fun hm => ⟨?_, key.2.2.2.2.2.2.2, hfirst, key.2.2.2.2.1 hm⟩, hfirst, ?_, ?_⟩
  · simp [Engine.indicesCreate, ht, hm]
  · rw [key2.2.2.2.2.2.1, if_pos hin]
    exact h400
  · intro hm
    rw [key2.2.2.2.2.1 hin, key.2.2.2.2.2.2.1 hm, List.count_append,
      List.count_eq_zero_of_not_mem hm]
    simp

/-- Witness of C8: the engine holds "prefix.v1" and `CreateIndex("v1")` returns no error. -/
theorem CreateIndex_idempotent_witness :
    ((managerOn (engineWith ["prefix.v1"])).CreateIndex plainHelpers "v1").err = none :=
  (CreateIndex_idempotent plainHelpers (managerOn (engineWith ["prefix.v1"])) "v1"
    rfl rfl (fun _ => ⟨_, rfl⟩) rfl).2.1

/-! ## Count parsing -/

/-- C2: `CountIndex` panics instead of returning an error. Whenever the body decodes to an
empty array the slice index `countJSON[0]` is out of range, and whenever the first record
has no `count` field or one that is not a string the type assertion fails; so with the
catalog-count body `[]`, with `[{}]` and with `[{"count":42}]` the call panics. On
`[{"count":"42"}]` it returns 42, and on a non-numeric string it returns an error. -/
theorem CountIndex_panics (es : ElasticSearch) (index : String)
    (ht : es.Client.transportErr = none) :
    (unmarshalMaps (es.Client.catCountBody index) = .ok [] →
        (es.CountIndex index).2 = .panic "runtime error: index out of range [0] with length 0")
      ∧ (∀ m rest, unmarshalMaps (es.Client.catCountBody index) = .ok (m :: rest) →
          (∀ s, mapGet m "count" ≠ some (.str s)) →
          (es.CountIndex index).2
            = .panic "interface conversion: interface \x7b\x7d is not string")
      ∧ (es.Client.catCountBody index = "[]" →
        (es.CountIndex index).2 = .panic "runtime error: index out of range [0] with length 0")
      ∧ (es.Client.catCountBody index = "[\x7b\x7d]" →
        (es.CountIndex index).2 = .panic "interface conversion: interface \x7b\x7d is not string")
      ∧ (es.Client.catCountBody index = "[\x7b\"count\":42\x7d]" →
        (es.CountIndex index).2 = .panic "interface conversion: interface \x7b\x7d is not string")
      ∧ (es.Client.catCountBody index = "[\x7b\"count\":\"42\"\x7d]" →
        (es.CountIndex index).2 = .ret (42, none))
      ∧ (es.Client.catCountBody index = "[\x7b\"count\":\"many\"\x7d]" →
        ∃ e, (es.CountIndex index).2 = .ret (-1, some e)) := by
  refine ⟨?_, ?_, ?_, ?_, ?_, ?_, ?_⟩
  · intro hb
    simp only [ElasticSearch.CountIndex, Engine.catCount, ht, hb]
  · intro m rest hb hm
    simp only [ElasticSearch.CountIndex, Engine.catCount, ht, hb]
  · intro hb
    simp only [ElasticSearch.CountIndex, Engine.catCount, ht, hb]
    rfl
  · intro hb
    simp only [ElasticSearch.CountIndex, Engine.catCount, ht, hb]
    rfl
  · intro hb
    simp only [ElasticSearch.CountIndex, Engine.catCount, ht, hb]
    rfl
  · intro hb
    simp only [ElasticSearch.CountIndex, Engine.catCount, ht, hb]
    rfl
  · intro hb
    simp only [ElasticSearch.CountIndex, Engine.catCount, ht, hb]
    exact ⟨_, rfl⟩

/-- Witness of C2: an engine that answers the count request with the body `[]`. -/
theorem CountIndex_panics_witness :
    ((managerOn (engineWith [])).CountIndex "prefix.v1").2
      = .panic "runtime error: index out of range [0] with length 0" :=
  (CountIndex_panics (managerOn (engineWith [])) "prefix.v1" rfl).2.2.1 rfl

/-! ## Decoding the output of the validation pod -/

theorem Split_newline (s : String) :
    Split s "\n" = (splitAux ['\n'] 0 s.data).map String.mk := by
  have h : ("\n" : String).data = ['\n'] := rfl
  simp [Split, h]

theorem Split_two_newlines (text : String) :
    Split (text ++ "\n\n") "\n" = Split text "\n" ++ ["", ""] := by
  have h : ("\n\n" : String).data = ['\n', '\n'] := rfl
  have e : text.data ++ ['\n', '\n'] = (text.data ++ ['\n']) ++ ['\n'] := by simp
  rw [Split_newline, Split_newline, String.data_append, h, e, splitAux_newline_snoc,
    splitAux_newline_snoc]
  simp

theorem Split_no_newline (text : String) (h : '\n' ∉ text.data) :
    Split text "\n" = [text] := by
  rw [Split_newline, splitAux_no_newline _ h]
  rfl

theorem index_penultimate_blank (l : List String) :
    index (l ++ ["", ""]) (((l ++ ["", ""]).length : Int) - 2) = .ret "" := by
  have hlen : (((l ++ ["", ""]).length : Int) - 2) = (l.length : Int) := by
    simp
  rw [hlen]
  have h1 : ¬ ((l.length : Int) < 0 ∨ (l.length : Int) ≥ ((l ++ ["", ""]).length : Int)) := by
    simp
  simp only [index, h1, if_false, Int.toNat_ofNat]
  rw [List.getD_append_right _ _ _ _ (le_refl _)]
  simp

theorem unmarshalResponse_blank (r : ValidationResponse) :
    unmarshalResponse "" r
      = (r, some (.mk "json" "invalid character or unexpected end of JSON input")) := rfl

theorem Wrap_wrap (e : GoError) : Wrap (Wrap e) = Wrap e := by
  cases e <;> rfl

theorem ParsePodResponse_calls (i : XJoinIndexValidatorIteration) (c : Cluster) :
    (i.ParsePodResponse c).1 = [K8sCall.getLogs i.Namespace i.ValidationPodName] := by
  unfold XJoinIndexValidatorIteration.ParsePodResponse
  simp only []
  split
  · rfl
  · split
    · rfl
    · split
      · rfl
      · split <;> rfl

theorem ParsePodResponse_error_wrapped (i : XJoinIndexValidatorIteration) (c : Cluster)
    (r : ValidationResponse) (e : GoError) (h : (i.ParsePodResponse c).2 = .ret (r, some e)) :
    Wrap e = e := by
  unfold XJoinIndexValidatorIteration.ParsePodResponse at h
  simp only [] at h
  split at h
  · simp only [Run.ret.injEq, Prod.mk.injEq, Option.some.injEq] at h
    rw [← h.2, Wrap_wrap]
  · split at h
    · simp only [Run.ret.injEq, Prod.mk.injEq, Option.some.injEq] at h
      rw [← h.2, Wrap_wrap]
    · split at h
      · cases h
      · split at h
        · simp only [Run.ret.injEq, Prod.mk.injEq, Option.some.injEq] at h
          rw [← h.2, Wrap_wrap]
        · simp at h

/-- C1: the code contradicts the claim. For every output that ends in two newlines,
whatever precedes them (log lines and the payload line), `ParsePodResponse` selects the
blank piece before the last newline, not the last non-empty line, and returns the JSON
decoding error with the zero response: neither "pass" nor "ok" is returned. -/
theorem ParsePodResponse_blank_trailing_line (i : XJoinIndexValidatorIteration) (c : Cluster)
    (text : String)
    (hs : c.Stream i.Namespace i.ValidationPodName = .ok (text ++ "\n\n"))
    (hc : c.faults.copy = none) :
    (i.ParsePodResponse c).2
      = .ret (⟨"", ""⟩,
          some (.wrap (.mk "json" "invalid character or unexpected end of JSON input"))) := by
  unfold XJoinIndexValidatorIteration.ParsePodResponse
  simp only [hs, hc, Split_two_newlines, index_penultimate_blank, unmarshalResponse_blank]
  rfl

/-- Witness of C1: the output "validating\n" followed by the payload
`{"message":"ok","result":"pass"}` and two newlines is answered with the decoding error,
while its last non-empty line is the payload; with one newline after the payload the
same output decodes to "ok" and "pass". -/
theorem ParsePodResponse_blank_trailing_line_witness :
    (sampleIteration.ParsePodResponse (clusterWithPod sampleIteration "Succeeded"
        ("validating\n\x7b\"message\":\"ok\",\"result\":\"pass\"\x7d" ++ "\n\n"))).2
        = .ret (⟨"", ""⟩,
            some (.wrap (.mk "json" "invalid character or unexpected end of JSON input")))
      ∧ specLastNonEmptyLine
          ("validating\n\x7b\"message\":\"ok\",\"result\":\"pass\"\x7d" ++ "\n\n")
        = some "\x7b\"message\":\"ok\",\"result\":\"pass\"\x7d"
      ∧ (sampleIteration.ParsePodResponse (clusterWithPod sampleIteration "Succeeded"
        "validating\n\x7b\"message\":\"ok\",\"result\":\"pass\"\x7d\n")).2
        = .ret (⟨"ok", "pass"⟩, none) :=
  ⟨ParsePodResponse_blank_trailing_line sampleIteration _
      "validating\n\x7b\"message\":\"ok\",\"result\":\"pass\"\x7d" rfl rfl, by decide,
    by decide⟩

/-! ## One pass of the validation orchestrator -/

/-- C10: the code contradicts the claim. In a pass that finds the owner's pod Succeeded,
an output without any newline (the empty output included) makes `ParsePodResponse`, and
with it `ReconcileValidationPod`, panic on the slice index instead of returning an error.
What holds: a selected line that is not JSON makes `ParsePodResponse` return the decoding
error, and whenever `ParsePodResponse` returns an error, the pass returns that error
with the empty phase string, issues no write and leaves the cluster as it was. -/
theorem ReconcileValidationPod_decode_failure (i : XJoinIndexValidatorIteration) (c : Cluster)
    (pods : List Pod) (pod : Pod)
    (hl : c.List i.Namespace [("xjoin.index", i.Name)] = .ok pods) (hne : pods ≠ [])
    (hg : c.Get i.ValidationPodName i.Namespace = .ok pod) (hph : pod.Phase = "Succeeded") :
    (∀ text, c.Stream i.Namespace i.ValidationPodName = .ok text → c.faults.copy = none →
        '\n' ∉ text.data →
        (i.ParsePodResponse c).2 = .panic "runtime error: index out of range"
          ∧ (i.ReconcileValidationPod c).result = .panic "runtime error: index out of range")
      ∧ (∀ text line, c.Stream i.Namespace i.ValidationPodName = .ok text →
          c.faults.copy = none →
          index (Split text "\n") (((Split text "\n").length : Int) - 2) = .ret line →
          parseJSON line = none →
          (i.ParsePodResponse c).2 = .ret (⟨"", ""⟩,
            some (.wrap (.mk "json" "invalid character or unexpected end of JSON input"))))
      ∧ (∀ r e, (i.ParsePodResponse c).2 = .ret (r, some e) →
          (i.ReconcileValidationPod c).result = .ret ("", some e)
            ∧ (∀ call ∈ (i.ReconcileValidationPod c).calls, call.isWrite = false)
            ∧ (i.ReconcileValidationPod c).cluster.pods = c.pods
            ∧ (i.ReconcileValidationPod c).cluster.indexPipelines = c.indexPipelines) := by
  have hlen : ¬ pods.length = 0 := by
    intro h
    exact hne (List.length_eq_zero.mp h)
  refine ⟨?_, ?_, ?_⟩
  · intro text hs hc hn
    have hp : (i.ParsePodResponse c).2 = .panic "runtime error: index out of range" := by
      unfold XJoinIndexValidatorIteration.ParsePodResponse
      simp only [hs, hc, Split_no_newline text hn]
      rfl
    refine ⟨hp, ?_⟩
    unfold XJoinIndexValidatorIteration.ReconcileValidationPod
    simp only [hl, hlen, if_false, hg, hph, if_true]
    rcases hq : i.ParsePodResponse c with ⟨pc, res⟩
    rw [hq] at hp
    simp only at hp
    subst hp
    rfl
  · intro text line hs hc hidx hj
    unfold XJoinIndexValidatorIteration.ParsePodResponse
    simp only [hs, hc, hidx, unmarshalResponse, hj]
    rfl
  · intro r e hp
    have hw := ParsePodResponse_error_wrapped i c r e hp
    have hcalls := ParsePodResponse_calls i c
    unfold XJoinIndexValidatorIteration.ReconcileValidationPod
    simp only [hl, hlen, if_false, hg, hph, if_true]
    rcases hq : i.ParsePodResponse c with ⟨pc, res⟩
    rw [hq] at hp hcalls
    simp only at hp hcalls
    subst hp
    subst hcalls
    simp only [hw]
    refine ⟨trivial, ?_, trivial, trivial⟩
    simp [K8sCall.isWrite]

/-- Witness of C10: the owner's pod is Succeeded with an empty output, and the pass
panics. -/
theorem ReconcileValidationPod_decode_failure_witness :
    (sampleIteration.ReconcileValidationPod (clusterWithPod sampleIteration "Succeeded" "")).result
      = .panic "runtime error: index out of range" :=
  ((ReconcileValidationPod_decode_failure sampleIteration
      (clusterWithPod sampleIteration "Succeeded" "")
      [{ sampleIteration.validationPod with Phase := "Succeeded", Logs := "" }]
      { sampleIteration.validationPod with Phase := "Succeeded", Logs := "" }
      rfl (by simp) rfl rfl).1 "" rfl rfl (by simp)).2

/-- C9: in every pass in which the listing by the owner label finds a pod and the pod of
the derived name is in phase Failed, `ReconcileValidationPod` returns "failed" with no
error, issues only the listing and the get (no deletion, no creation, no status write),
and leaves the pods and the index pipelines of the cluster as they were. -/
theorem ReconcileValidationPod_failed_frame (i : XJoinIndexValidatorIteration) (c : Cluster)
    (pods : List Pod) (pod : Pod)
    (hl : c.List i.Namespace [("xjoin.index", i.Name)] = .ok pods) (hne : pods ≠ [])
    (hg : c.Get i.ValidationPodName i.Namespace = .ok pod) (hph : pod.Phase = "Failed") :
    (i.ReconcileValidationPod c).result = .ret ("failed", none)
      ∧ (i.ReconcileValidationPod c).calls
          = [.listPods i.Namespace [("xjoin.index", i.Name)],
             .getPod i.ValidationPodName i.Namespace]
      ∧ (∀ call ∈ (i.ReconcileValidationPod c).calls, call.isWrite = false)
      ∧ (i.ReconcileValidationPod c).cluster.pods = c.pods
      ∧ (i.ReconcileValidationPod c).cluster.indexPipelines = c.indexPipelines := by
  have hlen : ¬ pods.length = 0 := by
    intro h
    exact hne (List.length_eq_zero.mp h)
  have hns : ¬ ("Failed" = "Succeeded") := by decide
  unfold XJoinIndexValidatorIteration.ReconcileValidationPod
  simp only [hl, hlen, if_false, hg, hph, hns, if_true]
  refine ⟨trivial, rfl, ?_, trivial, trivial⟩
  simp [K8sCall.isWrite]

/-- Witness of C9: the owner's pod is in phase Failed. -/
theorem ReconcileValidationPod_failed_frame_witness :
    (sampleIteration.ReconcileValidationPod (clusterWithPod sampleIteration "Failed" "boom\n")).result
      = .ret ("failed", none) :=
  (ReconcileValidationPod_failed_frame sampleIteration
      (clusterWithPod sampleIteration "Failed" "boom\n")
      [{ sampleIteration.validationPod with Phase := "Failed", Logs := "boom\n" }]
      { sampleIteration.validationPod with Phase := "Failed", Logs := "boom\n" }
      rfl (by simp) rfl rfl).1

theorem Create_pods (c : Cluster) (pod : Pod) :
    (c.Create pod).1.pods = c.pods ∨ (c.Create pod).1.pods = c.pods ++ [pod] := by
  unfold Cluster.Create
  split
  · exact Or.inl rfl
  · split
    · exact Or.inl rfl
    · exact Or.inr rfl

theorem StatusUpdate_pods (c : Cluster) (x : XJoinIndexPipeline) :
    (c.StatusUpdate x).1.pods = c.pods := by
  unfold Cluster.StatusUpdate
  split
  · rfl
  · split <;> rfl

theorem Delete_owned_le (i : XJoinIndexValidatorIteration) (c : Cluster) (pod : Pod) :
    (ownedPods i (c.Delete pod).1).length ≤ (ownedPods i c).length := by
  unfold Cluster.Delete
  split
  · exact le_refl _
  · split
    · simp only [ownedPods, List.filter_filter]
      apply List.Sublist.length_le
      apply List.monotone_filter_right
      intro p hp
      simp only [Bool.and_eq_true] at hp ⊢
      exact hp.1
    · exact le_refl _

theorem List_ok_owned (i : XJoinIndexValidatorIteration) (c : Cluster) (pods : List Pod)
    (h : c.List i.Namespace [("xjoin.index", i.Name)] = .ok pods) : pods = ownedPods i c := by
  unfold Cluster.List at h
  split at h
  · cases h
  · cases h
    rfl

/-- C3: in every pass of `ReconcileValidationPod`, over every cluster, a pod creation is
issued only when the listing by the owner label `xjoin.index = <owner name>` in the
owner's namespace succeeded and returned no pod, and it is then the one creation of the
validation pod; when the listing returns at least one pod, whatever the phases, the pass
issues no creation; and after the pass the number of pods under the owner label is at
most the larger of one and the number before the pass. -/
theorem ReconcileValidationPod_create_only_when_absent (i : XJoinIndexValidatorIteration)
    (c : Cluster) :
    (∀ call ∈ (i.ReconcileValidationPod c).calls, call.isCreate = true →
        c.List i.Namespace [("xjoin.index", i.Name)] = .ok []
          ∧ call = .createPod i.validationPod)
      ∧ (∀ pods, c.List i.Namespace [("xjoin.index", i.Name)] = .ok pods → pods ≠ [] →
          ∀ call ∈ (i.ReconcileValidationPod c).calls, call.isCreate = false)
      ∧ ((i.ReconcileValidationPod c).calls.filter K8sCall.isCreate).length ≤ 1
      ∧ (ownedPods i (i.ReconcileValidationPod c).cluster).length
          ≤ max 1 (ownedPods i c).length := by
  have hpc := ParsePodResponse_calls i c
  cases hL : c.List i.Namespace [("xjoin.index", i.Name)] with
  | error e =>
    unfold XJoinIndexValidatorIteration.ReconcileValidationPod
    simp [hL, K8sCall.isCreate]
  | ok pods =>
    have hown := List_ok_owned i c pods hL
    by_cases hz : pods.length = 0
    · have hnil : pods = [] := List.length_eq_zero.mp hz
      have hcount : (ownedPods i (c.Create i.validationPod).1).length ≤ 1 := by
        have h0 : ownedPods i c = [] := by rw [← hown, hnil]
        unfold ownedPods at h0 ⊢
        rcases Create_pods c i.validationPod with h | h
        · rw [h, h0]
          simp
        · rw [h, List.filter_append, h0]
          simp only [List.nil_append]
          exact (List.length_filter_le _ _).trans (by simp)
      unfold XJoinIndexValidatorIteration.ReconcileValidationPod
      simp only [hL, hz, if_true]
      rcases hC : c.Create i.validationPod with ⟨c1, oe⟩
      rw [hC] at hcount
      simp only [] at hcount
      cases oe <;> simp [K8sCall.isCreate, hnil] <;> omega
    · have hne : pods ≠ [] := fun h => hz (by rw [h]; rfl)
      have key : (∀ call ∈ (i.ReconcileValidationPod c).calls, call.isCreate = false)
          ∧ (ownedPods i (i.ReconcileValidationPod c).cluster).length
              ≤ (ownedPods i c).length := by
        unfold XJoinIndexValidatorIteration.ReconcileValidationPod
        simp only [hL, hz, if_false]
        cases hG : c.Get i.ValidationPodName i.Namespace with
        | error e => simp [K8sCall.isCreate]
        | ok pod =>
          simp only []
          by_cases hs : pod.Phase = "Succeeded"
          · simp only [hs, if_true]
            rcases hq : i.ParsePodResponse c with ⟨pc, res⟩
            rw [hq] at hpc
            simp only at hpc
            subst hpc
            cases res with
            | panic msg => simp [K8sCall.isCreate]
            | ret pr =>
              rcases pr with ⟨resp, oe⟩
              cases oe with
              | some e => simp [K8sCall.isCreate]
              | none =>
                simp only []
                cases hF : FetchXJoinIndexPipeline c i.Name i.Namespace with
                | error e => simp [K8sCall.isCreate]
                | ok x =>
                  simp only []
                  have hsp := StatusUpdate_pods c { x with ValidationResponse := resp }
                  rcases hU : c.StatusUpdate { x with ValidationResponse := resp } with ⟨c1, ou⟩
                  rw [hU] at hsp
                  simp only at hsp
                  have hc1 : ownedPods i c1 = ownedPods i c := by
                    unfold ownedPods
                    rw [hsp]
                  cases ou with
                  | some e =>
                    simp only []
                    split <;> simp [K8sCall.isCreate, hc1]
                  | none =>
                    simp only []
                    have hdel := Delete_owned_le i c1 pod
                    rw [hc1] at hdel
                    rcases hD : c1.Delete pod with ⟨c2, od⟩
                    rw [hD] at hdel
                    cases od <;> simp [K8sCall.isCreate] <;> exact hdel
          · simp only [hs, if_false]
            split <;> simp [K8sCall.isCreate]
      refine ⟨?_, ?_, ?_, ?_⟩
      · intro call hcall hcr
        rw [key.1 call hcall] at hcr
        cases hcr
      · intro _ _ _
        exact key.1
      · rw [List.filter_eq_nil_iff.mpr]
        · simp
        · intro a ha
          simp [key.1 a ha]
      · exact key.2.trans (le_max_right _ _)

/-- Witness of C3: the owner's pod exists and is Running; the pass issues no creation and
the owner still has one pod. -/
theorem ReconcileValidationPod_create_only_when_absent_witness :
    ((sampleIteration.ReconcileValidationPod
        (clusterWithPod sampleIteration "Running" "")).calls.filter K8sCall.isCreate).length ≤ 1
      ∧ (ownedPods sampleIteration (sampleIteration.ReconcileValidationPod
          (clusterWithPod sampleIteration "Running" "")).cluster).length
        ≤ max 1 (ownedPods sampleIteration (clusterWithPod sampleIteration "Running" "")).length :=
  (ReconcileValidationPod_create_only_when_absent sampleIteration
    (clusterWithPod sampleIteration "Running" "")).2.2

/-! ## Finalizer handling of the data source pipeline controller -/

/-- C4: in every pass of `Reconcile` that reaches `DeleteAll` (the resource was fetched,
it carries a deletion timestamp, the configuration was built and the resource is not
paused), if `DeleteAll` returns an error then `Reconcile` returns that error, takes no
finalizer-removal step and no update step, and the stored resource is as it was. In
every pass, a finalizer removal or an update is taken, or the stored resource changes,
only if the fetched resource carries a deletion timestamp and `DeleteAll` was called and
returned no error. -/
theorem Reconcile_finalizer_safety (w : World) :
    (∀ m e, Step.deleteAll m ∈ (Reconcile w).steps → w.DeleteAll m = some e →
        (Reconcile w).err = some e
          ∧ (∀ s ∈ (Reconcile w).steps, s.isFinalizerWrite = false)
          ∧ (Reconcile w).stored = w.stored)
      ∧ (((∃ s ∈ (Reconcile w).steps, s.isFinalizerWrite = true)
            ∨ (Reconcile w).stored ≠ w.stored) →
          (∃ inst, w.Fetch = .ok inst ∧ inst.DeletionTimestamp ≠ none)
            ∧ ∃ m, Step.deleteAll m ∈ (Reconcile w).steps ∧ w.DeleteAll m = none) := by
  unfold Reconcile
  cases hF : w.Fetch with
  | error err =>
    simp only []
    split <;> simp [Step.isFinalizerWrite]
  | ok inst =>
    simp only []
    cases hM : w.newManagerErr with
    | some err => simp [Step.isFinalizerWrite]
    | none =>
      simp only []
      cases hP : w.parseErr with
      | some err => simp [Step.isFinalizerWrite]
      | none =>
        simp only []
        by_cases hpause : w.Pause = true
        · simp [hpause, Step.isFinalizerWrite]
        · simp only [hpause, Bool.false_eq_true, if_false]
          by_cases hd : inst.DeletionTimestamp ≠ none
          · simp only [hd, ne_eq, not_false_eq_true, if_true]
            generalize (((NewComponentManager w.Version).AddComponent
              (.AvroSchema "test.schema" w.AvroSchema)).AddComponent .KafkaTopic).AddComponent
                .DebeziumConnector = cm
            cases hD : w.DeleteAll cm with
            | some err =>
              simp [Step.isFinalizerWrite]
              intro m e hm
              subst hm
              rw [hD]
              intro h
              cases h
              rfl
            | none =>
              simp only []
              rcases hU : w.Update (RemoveFinalizer inst xjoindatasourcepipelineFinalizer)
                with ⟨s, ou⟩
              cases ou <;> simp [Step.isFinalizerWrite, hd]
              all_goals
                refine ⟨fun m e hm he => ?_, hD⟩
                subst hm
                rw [hD] at he
                cases he
          · have hd2 : inst.DeletionTimestamp = none := by
              by_contra h
              exact hd h
            simp only [hd2, ne_eq, not_true_eq_false, if_false]
            generalize (((NewComponentManager w.Version).AddComponent
              (.AvroSchema "test.schema" w.AvroSchema)).AddComponent .KafkaTopic).AddComponent
                .DebeziumConnector = cm
            cases hC : w.CreateAll cm <;> simp [Step.isFinalizerWrite]

/-- Witness of C4: the resource is marked for deletion and `DeleteAll` fails; `Reconcile`
returns the error and the stored resource keeps its finalizer. -/
theorem Reconcile_finalizer_safety_witness :
    (Reconcile (deletionWorld (some (.mk "kafka" "connector not deleted")))).err
        = some (.mk "kafka" "connector not deleted")
      ∧ (Reconcile (deletionWorld (some (.mk "kafka" "connector not deleted")))).stored
        = some deletedPipeline :=
  have h := (Reconcile_finalizer_safety
    (deletionWorld (some (.mk "kafka" "connector not deleted")))).1
      (deletionWorld none).componentManager (.mk "kafka" "connector not deleted")
      (by decide) rfl
  ⟨h.1, h.2.2⟩

end XJoin
